import Mathlib

/-!
Verification of `menpofit/fitter.py`.

The Python source is shallowly embedded over exact rational arithmetic:
Python floats become `ℚ`, numpy random draws become explicit input streams
(`ℕ → ℚ`), external menpo collaborators (alignment transforms, trigonometric
evaluation, image operations) become function parameters, and fallible code
returns `Except String`.
-/

set_option maxRecDepth 4000

/-- A 2D shape (point cloud): an ordered list of 2D points with rational
coordinates.  Models `menpo.shape.PointCloud` restricted to two dimensions,
which is the case exercised by `fitter.py` (all random translation draws are
2-vectors). -/
abbrev Shape2 := List (ℚ × ℚ)

/-- A 2D affine transform: the point `(x, y)` is mapped to
`(a11*x + a12*y + t1, a21*x + a22*y + t2)`.  Models the `menpo.transform`
affine/similarity transform objects manipulated by `fitter.py`. -/
structure Affine2 where
  a11 : ℚ
  a12 : ℚ
  a21 : ℚ
  a22 : ℚ
  t1 : ℚ
  t2 : ℚ
deriving DecidableEq

namespace Affine2

/-- Apply the transform to a point. -/
def apply (f : Affine2) (p : ℚ × ℚ) : ℚ × ℚ :=
  (f.a11 * p.1 + f.a12 * p.2 + f.t1, f.a21 * p.1 + f.a22 * p.2 + f.t2)

/-- The identity transform. -/
def idA : Affine2 := ⟨1, 0, 0, 1, 0, 0⟩

/-- The transform `f.compose_after g` applies `g` first and `f` second,
mirroring menpo's `Transform.compose_after`. -/
def compose_after (f g : Affine2) : Affine2 :=
  ⟨f.a11 * g.a11 + f.a12 * g.a21, f.a11 * g.a12 + f.a12 * g.a22,
   f.a21 * g.a11 + f.a22 * g.a21, f.a21 * g.a12 + f.a22 * g.a22,
   f.a11 * g.t1 + f.a12 * g.t2 + f.t1,
   f.a21 * g.t1 + f.a22 * g.t2 + f.t2⟩

/-- menpo's `Translation(v)` transform (in two dimensions). -/
def Translation (v : ℚ × ℚ) : Affine2 := ⟨1, 0, 0, 1, v.1, v.2⟩

/-- An origin-centred uniform scaling by `k`. -/
def scaleA (k : ℚ) : Affine2 := ⟨k, 0, 0, k, 0, 0⟩

/-- An origin-centred counter-clockwise rotation, represented by the cosine
and sine of its angle (trigonometric evaluation of the angle is kept
abstract, see `rotate_ccw_about_centre`). -/
def rotA (c s : ℚ) : Affine2 := ⟨c, -s, s, c, 0, 0⟩

/-- Conjugate a transform so that it pivots about the point `c` instead of
the origin. -/
def aboutCentre (c : ℚ × ℚ) (f : Affine2) : Affine2 :=
  (Translation c).compose_after (f.compose_after (Translation (-c.1, -c.2)))

end Affine2

/-- Per-axis minimum of a shape's points (`(0, 0)` for the empty shape). -/
def shapeMin (s : Shape2) : ℚ × ℚ :=
  match s with
  | [] => (0, 0)
  | p :: ps => ps.foldl (fun m q => (min m.1 q.1, min m.2 q.2)) p

/-- Per-axis maximum of a shape's points (`(0, 0)` for the empty shape). -/
def shapeMax (s : Shape2) : ℚ × ℚ :=
  match s with
  | [] => (0, 0)
  | p :: ps => ps.foldl (fun m q => (max m.1 q.1, max m.2 q.2)) p

/-- menpo's `PointCloud.range()`: the per-axis extent (max minus min). -/
def rangeOf (s : Shape2) : ℚ × ℚ :=
  ((shapeMax s).1 - (shapeMin s).1, (shapeMax s).2 - (shapeMin s).2)

/-- menpo's `PointCloud.centre()`: the centre of the bounding box. -/
def centreOf (s : Shape2) : ℚ × ℚ :=
  (((shapeMin s).1 + (shapeMax s).1) / 2, ((shapeMin s).2 + (shapeMax s).2) / 2)

/-- menpo's `scale_about_centre(target, k)`: uniform scaling by `k` pivoted
about the target's centre. -/
def scale_about_centre (target : Shape2) (k : ℚ) : Affine2 :=
  Affine2.aboutCentre (centreOf target) (Affine2.scaleA k)

/-- menpo's `rotate_ccw_about_centre(target, θ)`: counter-clockwise rotation
about the target's centre.  The angle θ (in degrees) is represented by its
cosine `c` and sine `s`, supplied by the trigonometric oracle of the caller
(exact trigonometry is not available over `ℚ`). -/
def rotate_ccw_about_centre (target : Shape2) (c s : ℚ) : Affine2 :=
  Affine2.aboutCentre (centreOf target) (Affine2.rotA c s)

/-- The `noise_percentage` argument: either a Python float scalar or a
sequence of floats. -/
inductive NoisePct where
  | scalar (p : ℚ)
  | vec (ps : List ℚ)
deriving DecidableEq

/-- Lines 44-47 of `fitter.py`: a float scalar is expanded to a fresh
3-element list; a single-element sequence is extended in place by Python's
`noise_percentage *= 3`.  The boolean records whether the caller's list
object was mutated in place (`lst *= 3` on a Python list mutates it; the
scalar branch builds a new list). -/
def normalize_noise_percentage : NoisePct → List ℚ × Bool
  | .scalar p => ([p, p, p], false)
  | .vec ps => if ps.length = 1 then (ps ++ ps ++ ps, true) else (ps, false)

/-- Python's `IndexError` raised when indexing a too-short list. -/
def indexErrorMsg : String := "IndexError: list index out of range"

/-- The `ValueError` raised for an unsupported noise type
(`fitter.py` lines 68-69). -/
def noiseTypeErrorMsg : String :=
  "ValueError: Unexpected noise type. Supported values are \x7bgaussian, uniform\x7d"

/-- The sequential reads `pct[0]`, `pct[1]`, `pct[2]` performed inside each
noise branch; a missing index raises Python's `IndexError`. -/
def getPct3 (pct : List ℚ) : Except String (ℚ × ℚ × ℚ) :=
  match pct[0]?, pct[1]?, pct[2]? with
  | some p0, some p1, some p2 => .ok (p0, p1, p2)
  | _, _, _ => .error indexErrorMsg

/-- Shallow embedding of `noisy_alignment_similarity_transform`
(`fitter.py` lines 14-71).  External collaborators are parameters:
`alignment_similarity` models `menpo.transform.AlignmentSimilarity(source,
target, rotation=rotation)` (line 49), and `cosd`/`sind` give the cosine and
sine of an angle expressed in degrees (the trigonometric content of menpo's
`rotate_ccw_about_centre`).  Random draws are explicit input streams:
`normals k` is the `k`-th value produced by `np.random.randn` during the
call and `uniforms k` the `k`-th value produced by `np.random.rand`.
Python's `is` comparison on the interned literal strings
'gaussian'/'uniform' is modelled as string equality (cf. the spec's design
note). -/
def noisy_alignment_similarity_transform
    (alignment_similarity : Shape2 → Shape2 → Bool → Affine2)
    (cosd sind : ℚ → ℚ) (normals uniforms : ℕ → ℚ)
    (source target : Shape2) (noise_type : String)
    (noise_percentage : NoisePct) (rotation : Bool) : Except String Affine2 :=
  let pct := (normalize_noise_percentage noise_percentage).1
  let similarity := alignment_similarity source target rotation
  if noise_type = "gaussian" then
    match getPct3 pct with
    | .error e => .error e
    | .ok (p0, p1, p2) =>
      let s := p0 * (0.5 / 3) * normals 0
      let r := p1 * (180 / 3) * normals 1
      let t : ℚ × ℚ := (p2 * ((rangeOf target).1 / 3) * normals 2,
                        p2 * ((rangeOf target).2 / 3) * normals 3)
      let sT := scale_about_centre target (1 + s)
      let rT := rotate_ccw_about_centre target (cosd r) (sind r)
      let tT := Affine2.Translation t
      .ok (similarity.compose_after (tT.compose_after (sT.compose_after rT)))
  else if noise_type = "uniform" then
    match getPct3 pct with
    | .error e => .error e
    | .ok (p0, p1, p2) =>
      -- line 60 of the source draws the scale noise from `np.random.randn`
      -- (the normal stream), not `np.random.rand`
      let s := p0 * 0.5 * (2 * normals 0 - 1)
      let r := p1 * 180 * (2 * uniforms 0 - 1)
      let t : ℚ × ℚ := (p2 * (rangeOf target).1 * (2 * uniforms 1 - 1),
                        p2 * (rangeOf target).2 * (2 * uniforms 2 - 1))
      let sT := scale_about_centre target (1 + s)
      let rT := rotate_ccw_about_centre target (cosd r) (sind r)
      let tT := Affine2.Translation t
      .ok (similarity.compose_after (tT.compose_after (sT.compose_after rT)))
  else
    .error noiseTypeErrorMsg

/-- Substring test on character lists (used to state that an error message
names a value). -/
def subList (needle hay : List Char) : Bool :=
  hay.tails.any (fun t => needle.isPrefixOf t)

instance {ε α : Type} [DecidableEq ε] [DecidableEq α] :
    DecidableEq (Except ε α) := fun a b =>
  match a, b with
  | .ok x, .ok y =>
    if h : x = y then .isTrue (by rw [h]) else .isFalse (by simp [h])
  | .error x, .error y =>
    if h : x = y then .isTrue (by rw [h]) else .isFalse (by simp [h])
  | .ok _, .error _ => .isFalse (by simp)
  | .error _, .ok _ => .isFalse (by simp)

/-- The result of one per-scale algorithm run.  `final_shape` is the only
member `MultiFitter._fit` reads (`AlgorithmResult` contract of the spec). -/
structure AlgoResult where
  final_shape : Shape2
deriving DecidableEq

/-- A per-scale optimization algorithm, consumed only through the
`run(image, shape, gt_shape=…, max_iters=…)` contract. -/
abbrev Algorithm (ι : Type) := ι → Shape2 → Option Shape2 → ℕ → AlgoResult

/-- Default used to make out-of-range accesses into `self.algorithms`
total; never reached when the configuration lists have one entry per
scale. -/
def defaultAlgorithm {ι : Type} : Algorithm ι := fun _ shape _ _ => ⟨shape⟩

/-- menpo's `Scale(factor, n_dims=2).apply(shape)`. -/
def scaleShape (k : ℚ) (shape : Shape2) : Shape2 :=
  shape.map (fun p => (k * p.1, k * p.2))

/-- The `max_iters` argument: a single integer or a list of integers. -/
inductive MaxIters where
  | scalar (k : ℕ)
  | list (l : List ℕ)
deriving DecidableEq

/-- The configuration error raised on a `max_iters` length mismatch. -/
def maxItersErrorMsg : String :=
  "ValueError: max_iters must be an integer or a list with one entry per scale"

/-- Modelled from the spec: `menpofit.checks.check_max_iters` lives in
`menpofit/checks.py`, which is not part of the provided source.  Per the
spec it "normalizes a scalar-or-list iteration budget into exactly
`n_scales` entries; fails with a configuration error on length mismatch",
with "a scalar … broadcast to all scales". -/
def check_max_iters (max_iters : MaxIters) (n_scales : ℕ) :
    Except String (List ℕ) :=
  match max_iters with
  | .scalar k => .ok (List.replicate n_scales k)
  | .list l => if l.length = n_scales then .ok l else .error maxItersErrorMsg

/-- The per-scale loop of `MultiFitter._fit` (`fitter.py` lines 377-402).
`rem` is the number of remaining scales and `i` the current scale index
(the loop runs `i` over `range(self.n_scales)`, so `_fit` starts it with
`rem = n_scales` and `i = 0`).  List accesses mirror `self.algorithms[i]`,
`images[i]`, `max_iters[i]`, `gt_shapes[i]`, `self.scales[i]`,
`self.scales[i + 1]` and `self.scales[-1]`; the `getD` defaults are never
reached when the configuration lists have one entry per scale. -/
def fitLoop {ι : Type} [Inhabited ι] (scales : List ℚ)
    (algorithms : List (Algorithm ι)) (images : List ι) (budgets : List ℕ)
    (gt_shapes : Option (List Shape2)) :
    ℕ → ℕ → Shape2 → List AlgoResult
  | 0, _, _ => []
  | rem + 1, i, shape =>
    let gt_shape := gt_shapes.bind (fun l => l[i]?)
    let algorithm_result :=
      (algorithms.getD i defaultAlgorithm) (images.getD i default) shape
        gt_shape (budgets.getD i 0)
    let shape' :=
      if scales.getD i 0 ≠ scales.getD (scales.length - 1) 0 then
        scaleShape (scales.getD (i + 1) 0 / scales.getD i 0)
          algorithm_result.final_shape
      else
        algorithm_result.final_shape
    algorithm_result ::
      fitLoop scales algorithms images budgets gt_shapes rem (i + 1) shape'

/-- The method `MultiFitter._fit` (`fitter.py` lines 371-402): normalize `max_iters`
via the validation helper, then run the per-scale loop starting from the
coarsest scale's initial shape. -/
def MultiFitter._fit {ι : Type} [Inhabited ι] (scales : List ℚ)
    (algorithms : List (Algorithm ι)) (images : List ι)
    (initial_shape : Shape2) (gt_shapes : Option (List Shape2))
    (max_iters : MaxIters) : Except String (List AlgoResult) :=
  match check_max_iters max_iters scales.length with
  | .error e => .error e
  | .ok budgets =>
    .ok (fitLoop scales algorithms images budgets gt_shapes scales.length 0
          initial_shape)

/-- Claim-side rendering of the per-scale loop in which the run at scale
`i` explicitly receives the iteration budget `B i` (used to state how
`_fit` distributes `max_iters` over the scales). -/
def runsWithBudget {ι : Type} [Inhabited ι] (scales : List ℚ)
    (algorithms : List (Algorithm ι)) (images : List ι) (B : ℕ → ℕ)
    (gt_shapes : Option (List Shape2)) :
    ℕ → ℕ → Shape2 → List AlgoResult
  | 0, _, _ => []
  | rem + 1, i, shape =>
    let gt_shape := gt_shapes.bind (fun l => l[i]?)
    let algorithm_result :=
      (algorithms.getD i defaultAlgorithm) (images.getD i default) shape
        gt_shape (B i)
    let shape' :=
      if scales.getD i 0 ≠ scales.getD (scales.length - 1) 0 then
        scaleShape (scales.getD (i + 1) 0 / scales.getD i 0)
          algorithm_result.final_shape
      else
        algorithm_result.final_shape
    algorithm_result ::
      runsWithBudget scales algorithms images B gt_shapes rem (i + 1) shape'

/-- Claim-side rendering of the per-scale loop in which the shape handed to
scale `i + 1` is always the scale-`i` `final_shape` rescaled by
`scales[i+1] / scales[i]`, and the final scale's `final_shape` is never
rescaled: the index test `i + 1 < n_scales` replaces the source's
value comparison `scales[i] != scales[-1]`. -/
def chainedFit {ι : Type} [Inhabited ι] (scales : List ℚ)
    (algorithms : List (Algorithm ι)) (images : List ι) (budgets : List ℕ)
    (gt_shapes : Option (List Shape2)) :
    ℕ → ℕ → Shape2 → List AlgoResult
  | 0, _, _ => []
  | rem + 1, i, shape =>
    let gt_shape := gt_shapes.bind (fun l => l[i]?)
    let algorithm_result :=
      (algorithms.getD i defaultAlgorithm) (images.getD i default) shape
        gt_shape (budgets.getD i 0)
    let shape' :=
      if i + 1 < scales.length then
        scaleShape (scales.getD (i + 1) 0 / scales.getD i 0)
          algorithm_result.final_shape
      else
        algorithm_result.final_shape
    algorithm_result ::
      chainedFit scales algorithms images budgets gt_shapes rem (i + 1) shape'

/-- An image as seen by `fitter.py`: a mutable mapping of named landmark
groups, keyed by strings (the pixel payload plays no role in the
orchestration code and is absorbed into the external pipeline functions).
The mapping has Python-dict semantics: insertion order is preserved,
overwriting keeps the original slot, fresh keys are appended.  `α` is the
type of attached shapes. -/
structure Image (α : Type) where
  landmarks : List (String × α)
deriving DecidableEq

/-- Lookup `mapping[k]` as an option (the callers turn `none` into `KeyError`). -/
def dictGet {α : Type} (m : List (String × α)) (k : String) : Option α :=
  (m.find? (fun kv => kv.1 == k)).map (fun kv => kv.2)

/-- Assignment `mapping[k] = v`: overwrite in place if `k` is present, else append. -/
def dictSet {α : Type} (m : List (String × α)) (k : String) (v : α) :
    List (String × α) :=
  if m.any (fun kv => kv.1 == k) then
    m.map (fun kv => if kv.1 == k then (k, v) else kv)
  else
    m ++ [(k, v)]

/-- Deletion `del mapping[k]` (the callers below only delete keys they attached). -/
def dictDel {α : Type} (m : List (String × α)) (k : String) :
    List (String × α) :=
  m.filter (fun kv => kv.1 != k)

/-- Python's `KeyError` on a missing landmark group. -/
def keyErrorMsg : String := "KeyError"

/-- One pass of `_prepare_image`'s feature/scale pyramid loop
(`fitter.py` lines 336-353).  `self.holistic_features` is modelled as a
list of identity tokens `fIdx` resolved through `fTab`, so the source's
object-identity test `self.holistic_features[i] is not
self.holistic_features[i - 1]` becomes a token comparison: identical
tokens are the identical function object, while distinct tokens may still
resolve to equal functions — exactly Python's `is` semantics.  `fprev` is
the `feature_image` variable carried over from the previous iteration
(unused when `i = 0`). -/
def pyramidLoop {α : Type} (fIdx : List ℕ) (fTab : ℕ → Image α → Image α)
    (image_rescale : ℚ → Image α → Image α) (scales : List ℚ)
    (tmp_image : Image α) : ℕ → ℕ → Image α → List (Image α)
  | 0, _, _ => []
  | rem + 1, i, fprev =>
    let feature_image :=
      if i = 0 ∨ fIdx.getD i 0 ≠ fIdx.getD (i - 1) 0 then
        fTab (fIdx.getD i 0) tmp_image
      else fprev
    let scaled_image :=
      if scales.getD i 0 ≠ 1 then
        image_rescale (scales.getD i 0) feature_image
      else feature_image
    scaled_image ::
      pyramidLoop fIdx fTab image_rescale scales tmp_image rem (i + 1)
        feature_image

/-- The comprehension `[i.landmarks[g].lms for i in images]`
(`fitter.py` lines 356-360); a missing group raises `KeyError`. -/
def collectShapes {α : Type} (imgs : List (Image α)) (g : String) :
    Except String (List α) :=
  match imgs with
  | [] => .ok []
  | im :: rest =>
    match dictGet im.landmarks g with
    | none => .error keyErrorMsg
    | some s =>
      match collectShapes rest g with
      | .error e => .error e
      | .ok ss => .ok (s :: ss)

/-- The method `MultiFitter._prepare_image` (`fitter.py` lines 317-369).  External
image operations are parameters: `crop c im` models
`im.crop_to_landmarks_proportion(c, group='__initial_shape')`,
`rescale_to_ref im` models `im.rescale_to_pointcloud(self.reference_shape,
group='__initial_shape')`, `fIdx`/`fTab` model `self.holistic_features`
(see `pyramidLoop`) and `image_rescale k im` models `im.rescale(k)`.  Each
of these returns a new image object, as menpo's counterparts do; the
original `image` is mutated only by the landmark attach/detach
operations.  Python's `if crop_image:` truthiness means a proportion of
`0.0` also skips cropping.  The result is the pair (final state of the
original image, returned-value-or-error); when a `KeyError` escapes, the
transient landmark groups are left attached, as in the source. -/
def MultiFitter._prepare_image {α : Type}
    (crop : ℚ → Image α → Image α) (rescale_to_ref : Image α → Image α)
    (fIdx : List ℕ) (fTab : ℕ → Image α → Image α)
    (image_rescale : ℚ → Image α → Image α) (scales : List ℚ)
    (image : Image α) (initial_shape : α) (gt_shape : Option α)
    (crop_image : Option ℚ) :
    Image α × Except String (List (Image α) × List α × Option (List α)) :=
  let image1 : Image α :=
    ⟨dictSet image.landmarks "__initial_shape" initial_shape⟩
  let image2 : Image α :=
    match gt_shape with
    | some g => ⟨dictSet image1.landmarks "__gt_shape" g⟩
    | none => image1
  let tmp0 : Image α :=
    match crop_image with
    | none => image2
    | some c => if c = 0 then image2 else crop c image2
  let tmp_image := rescale_to_ref tmp0
  let images := pyramidLoop fIdx fTab image_rescale scales tmp_image
    scales.length 0 tmp_image
  match collectShapes images "__initial_shape" with
  | .error e => (image2, .error e)
  | .ok initial_shapes =>
    match gt_shape with
    | some _ =>
      match collectShapes images "__gt_shape" with
      | .error e => (image2, .error e)
      | .ok gt_shapes =>
        let image3 : Image α := ⟨dictDel image2.landmarks "__initial_shape"⟩
        let image4 : Image α := ⟨dictDel image3.landmarks "__gt_shape"⟩
        (image4, .ok (images, initial_shapes, some gt_shapes))
    | none =>
      let image3 : Image α := ⟨dictDel image2.landmarks "__initial_shape"⟩
      (image3, .ok (images, initial_shapes, none))

/-- Glob matching over landmark-group names, as used by menpo's
`items_matching`: `*` matches any (possibly empty) character sequence and
every other character matches itself — the only glob feature the source's
callers rely on (`fnmatch`'s `?`/`[seq]` forms are not modelled). -/
def globMatch : List Char → List Char → Bool
  | [], s => s.isEmpty
  | c :: ps, s =>
    if c = '*' then s.tails.any (fun t => globMatch ps t)
    else
      match s with
      | [] => false
      | x :: s' => c == x && globMatch ps s'

/-- menpo's `im.landmarks.items_matching(glob)`: the glob-matching entries
of the landmark mapping (Python-2 era menpo filters a list snapshot of the
mapping's items, so later mutation of the mapping does not disturb an
ongoing enumeration). -/
def itemsMatching {α : Type} (glob : String) (im : Image α) :
    List (String × α) :=
  im.landmarks.filter (fun kv => globMatch glob.toList kv.1.toList)

/-- The number of landmark groups matching a glob. -/
def countMatching {α : Type} (glob : String) (im : Image α) : ℕ :=
  (itemsMatching glob im).length

/-- The landmark-group name `'__generated_bb_{}'.format(k)`
(`fitter.py` lines 541 and 546). -/
def bbKey (k : ℕ) : String := "__generated_bb_" ++ Nat.repr k

/-- The glob `'__generated_bb_*'` used by the returned accessor
(line 554). -/
def generatedBbGlob : String := "__generated_bb_*"

/-- The `ValueError` raised when the bounding-box glob matches nothing
(`fitter.py` lines 519-521). -/
def bbGlobErrorMsg (glob : String) : String :=
  "ValueError: Must provide a valid bounding box glob - no bounding boxes matched the following glob: "
    ++ glob

/-- The inner perturbation loop of `generate_perturbations_from_gt`
(lines 539-543): attach `n` perturbed boxes under consecutive
`__generated_bb_{k}` names.  `perturb_func rng` models the `rng`-th call
of the caller-supplied perturbation function (the process-global random
state made explicit), and `bounding_box` models the `.bounding_box()`
applied to its result.  Returns the advanced counter `k`, the advanced
random index and the mutated image. -/
def attachPerturbs {α : Type} (perturb_func : ℕ → α → α → α)
    (bounding_box : α → α) (gt_s bb : α) :
    ℕ → ℕ → ℕ → Image α → ℕ × ℕ × Image α
  | 0, k, rng, im => (k, rng, im)
  | n + 1, k, rng, im =>
    let p_s := bounding_box (perturb_func rng gt_s bb)
    attachPerturbs perturb_func bounding_box gt_s bb n (k + 1) (rng + 1)
      ⟨dictSet im.landmarks (bbKey k) p_s⟩

/-- The loop over source boxes (lines 538-548): for each box attach
`n_perturbations` generated boxes and then — when a glob was supplied
(`passthrough`) — re-attach the source box itself under the next counter
slot. -/
def attachForBoxes {α : Type} (perturb_func : ℕ → α → α → α)
    (bounding_box : α → α) (gt_s : α) (n_perturbations : ℕ)
    (passthrough : Bool) :
    List α → ℕ → ℕ → Image α → ℕ × ℕ × Image α
  | [], k, rng, im => (k, rng, im)
  | bb :: rest, k, rng, im =>
    let r1 := attachPerturbs perturb_func bounding_box gt_s bb
      n_perturbations k rng im
    let r2 :=
      if passthrough then
        (r1.1 + 1, r1.2.1,
          Image.mk (dictSet r1.2.2.landmarks (bbKey r1.1) bb))
      else r1
    attachForBoxes perturb_func bounding_box gt_s n_perturbations passthrough
      rest r2.1 r2.2.1 r2.2.2

/-- The per-image body of `generate_perturbations_from_gt`'s main loop
(lines 534-551).  `bounding_box` models menpo's `.bounding_box()`;
`has_landmarks_outside_bounds` and `clamp` model the bounds test and the
per-group landmark clamping performed by `im.constrain_landmarks_to_bounds()`.
When `bb_group_glob` is `None` the source-box list is the ground-truth
bounding box alone (the source's `bb_generator` re-reads the same
`gt_group` entry of the unmutated mapping); otherwise it is the snapshot
of glob-matching groups.  A missing `gt_group` raises `KeyError`. -/
def process_one_image {α : Type} (n_perturbations : ℕ)
    (perturb_func : ℕ → α → α → α) (bounding_box : α → α)
    (has_landmarks_outside_bounds : Image α → Bool) (clamp : α → α)
    (gt_group : String) (bb_group_glob : Option String) (rng : ℕ)
    (im : Image α) : Except String (ℕ × Image α) :=
  match dictGet im.landmarks gt_group with
  | none => .error keyErrorMsg
  | some gt_lms =>
    let gt_s := bounding_box gt_lms
    let bbs : List α :=
      match bb_group_glob with
      | none => [gt_s]
      | some gl => (itemsMatching gl im).map (fun kv => bounding_box kv.2)
    let r := attachForBoxes perturb_func bounding_box gt_s n_perturbations
      bb_group_glob.isSome bbs 0 rng im
    let im2 :=
      if has_landmarks_outside_bounds r.2.2 then
        Image.mk (r.2.2.landmarks.map (fun kv => (kv.1, clamp kv.2)))
      else r.2.2
    .ok (r.2.1, im2)

/-- The loop over images, threading the random index. -/
def processImages {α : Type} (n_perturbations : ℕ)
    (perturb_func : ℕ → α → α → α) (bounding_box : α → α)
    (has_landmarks_outside_bounds : Image α → Bool) (clamp : α → α)
    (gt_group : String) (bb_group_glob : Option String) :
    ℕ → List (Image α) → Except String (List (Image α))
  | _, [] => .ok []
  | rng, im :: rest =>
    match process_one_image n_perturbations perturb_func bounding_box
        has_landmarks_outside_bounds clamp gt_group bb_group_glob rng im with
    | .error e => .error e
    | .ok (rng1, im1) =>
      match processImages n_perturbations perturb_func bounding_box
          has_landmarks_outside_bounds clamp gt_group bb_group_glob rng1
          rest with
      | .error e => .error e
      | .ok rest1 => .ok (im1 :: rest1)

/-- The function `generate_perturbations_from_gt` (`fitter.py` lines 481-555), rendered
with explicit state: the source mutates the images in place and returns an
accessor closure; here the mutated images are returned (the accessor is
modelled separately as `generated_bb_func`).  With a glob, `n_bbs` is
counted on `images[0]` (an empty image list raises `IndexError` there) and
a zero count raises the `ValueError` before any image is processed; with
`bb_group_glob = None`, `n_bbs` is 1 and no such check can fire.
`print_progress` is purely observational and is omitted. -/
def generate_perturbations_from_gt {α : Type} (images : List (Image α))
    (n_perturbations : ℕ) (perturb_func : ℕ → α → α → α)
    (bounding_box : α → α) (has_landmarks_outside_bounds : Image α → Bool)
    (clamp : α → α) (gt_group : String) (bb_group_glob : Option String) :
    Except String (List (Image α)) :=
  match bb_group_glob with
  | none =>
    processImages n_perturbations perturb_func bounding_box
      has_landmarks_outside_bounds clamp gt_group none 0 images
  | some gl =>
    match images with
    | [] => .error indexErrorMsg
    | im0 :: _ =>
      if (itemsMatching gl im0).length = 0 then
        .error (bbGlobErrorMsg gl)
      else
        processImages n_perturbations perturb_func bounding_box
          has_landmarks_outside_bounds clamp gt_group (some gl) 0 images

/-- The accessor closure returned by `generate_perturbations_from_gt`
(lines 553-554): all `__generated_bb_*` shapes attached to an image. -/
def generated_bb_func {α : Type} (x : Image α) : List α :=
  (itemsMatching generatedBbGlob x).map (fun kv => kv.2)

/-- Numeric value of a decimal digit character. -/
def decDigitVal (c : Char) : ℕ := c.toNat - '0'.toNat

/-- Decimal parse of a character list (a left inverse of `Nat.toDigits 10`,
used to show distinct counters give distinct `__generated_bb_{k}` names). -/
def decVal (l : List Char) : ℕ :=
  l.foldl (fun acc c => acc * 10 + decDigitVal c) 0

theorem Affine2.apply_compose_after (f g : Affine2) (p : ℚ × ℚ) :
    (f.compose_after g).apply p = f.apply (g.apply p) := by
  cases f; cases g
  simp only [compose_after, apply, Prod.mk.injEq]
  constructor <;> ring

theorem Affine2.compose_after_idA (f : Affine2) : f.compose_after idA = f := by
  cases f
  simp only [compose_after, idA, Affine2.mk.injEq]
  norm_num

theorem Affine2.idA_compose_after (f : Affine2) : idA.compose_after f = f := by
  cases f
  simp only [compose_after, idA, Affine2.mk.injEq]
  norm_num

theorem Affine2.aboutCentre_idA (c : ℚ × ℚ) : aboutCentre c idA = idA := by
  simp only [aboutCentre, compose_after, Translation, idA, Affine2.mk.injEq]
  norm_num

theorem Affine2.Translation_zero : Translation (0, 0) = idA := rfl

theorem Affine2.Translation_zero' : Translation (0 : ℚ × ℚ) = idA := rfl

theorem Affine2.scaleA_one : scaleA 1 = idA := rfl

theorem Affine2.rotA_one_zero : rotA 1 0 = idA := by
  simp only [rotA, idA, neg_zero]

theorem Affine2.apply_Translation (v : ℚ × ℚ) (p : ℚ × ℚ) :
    (Translation v).apply p = p + v := by
  cases p; cases v
  simp only [Translation, apply, Prod.mk_add_mk, Prod.mk.injEq]
  constructor <;> ring

theorem getPct3_error_eq {l : List ℚ} {e : String}
    (h : getPct3 l = .error e) : e = indexErrorMsg := by
  unfold getPct3 at h
  cases h0 : l[0]? <;> rw [h0] at h
  · exact (Except.error.inj h).symm
  · cases h1 : l[1]? <;> rw [h1] at h
    · exact (Except.error.inj h).symm
    · cases h2 : l[2]? <;> rw [h2] at h
      · exact (Except.error.inj h).symm
      · cases h

/-- Claim C5.  With a zero noise percentage (the zero scalar or the all-zero
3-vector) and either supported noise type, the function returns exactly the
un-perturbed optimal similarity alignment transform between source and
target, and raises no error. -/
theorem claim_C5_zero_noise_passthrough
    (alignment_similarity : Shape2 → Shape2 → Bool → Affine2)
    (cosd sind : ℚ → ℚ) (normals uniforms : ℕ → ℚ)
    (source target : Shape2) (noise_type : String) (noise_percentage : NoisePct)
    (rotation : Bool)
    (hcos : cosd 0 = 1) (hsin : sind 0 = 0)
    (hnt : noise_type = "gaussian" ∨ noise_type = "uniform")
    (hpct : noise_percentage = .scalar 0 ∨ noise_percentage = .vec [0, 0, 0]) :
    noisy_alignment_similarity_transform alignment_similarity cosd sind normals
      uniforms source target noise_type noise_percentage rotation
      = .ok (alignment_similarity source target rotation) := by
  have hnorm : (normalize_noise_percentage noise_percentage).1 = [0, 0, 0] := by
    rcases hpct with rfl | rfl <;> rfl
  have hget : getPct3 [0, 0, 0] = .ok (0, 0, 0) := rfl
  rcases hnt with rfl | rfl <;>
    simp only [noisy_alignment_similarity_transform, hnorm, hget,
      String.reduceEq, if_true, if_false, reduceIte] <;>
    norm_num [scale_about_centre, rotate_ccw_about_centre, hcos, hsin,
      Affine2.scaleA_one, Affine2.rotA_one_zero, Affine2.aboutCentre_idA,
      Affine2.Translation_zero, Affine2.Translation_zero',
      Affine2.compose_after_idA, Affine2.idA_compose_after]

theorem claim_C5_witness :
    noisy_alignment_similarity_transform (fun _ _ _ => Affine2.idA)
      (fun _ => 1) (fun _ => 0) (fun _ => 0) (fun _ => 0) [] []
      "uniform" (NoisePct.scalar 0) false = .ok Affine2.idA :=
  claim_C5_zero_noise_passthrough (fun _ _ _ => Affine2.idA)
    (fun _ => 1) (fun _ => 0) (fun _ => 0) (fun _ => 0) [] []
    "uniform" (NoisePct.scalar 0) false rfl rfl (Or.inr rfl) (Or.inl rfl)

/-- Claim C6.  The function raises the unsupported-noise-type `ValueError` if
and only if `noise_type` is neither 'gaussian' nor 'uniform', and the error
message names both supported values. -/
theorem claim_C6_noise_type_error
    (alignment_similarity : Shape2 → Shape2 → Bool → Affine2)
    (cosd sind : ℚ → ℚ) (normals uniforms : ℕ → ℚ)
    (source target : Shape2) (noise_type : String) (noise_percentage : NoisePct)
    (rotation : Bool) :
    ((noisy_alignment_similarity_transform alignment_similarity cosd sind normals
        uniforms source target noise_type noise_percentage rotation
        = .error noiseTypeErrorMsg)
      ↔ (noise_type ≠ "gaussian" ∧ noise_type ≠ "uniform"))
    ∧ subList "gaussian".toList noiseTypeErrorMsg.toList = true
    ∧ subList "uniform".toList noiseTypeErrorMsg.toList = true := by
  refine ⟨⟨?_, ?_⟩, by decide, by decide⟩
  · intro h
    constructor <;> rintro rfl <;>
      · simp only [noisy_alignment_similarity_transform, String.reduceEq,
          if_true, if_false, reduceIte] at h
        cases hp : getPct3 (normalize_noise_percentage noise_percentage).1 <;>
          rw [hp] at h
        · have := getPct3_error_eq hp
          subst this
          have := Except.error.inj h
          exact absurd this (by decide)
        · rename_i t
          obtain ⟨q0, q1, q2⟩ := t
          cases h
  · rintro ⟨h1, h2⟩
    simp only [noisy_alignment_similarity_transform, if_neg h1, if_neg h2]

/-- Claim C10.  A one-element `noise_percentage` list `[p]` is extended in
place to `[p, p, p]` by Python's `*= 3` — a mutation visible to the caller —
and the call then behaves exactly as if `[p, p, p]` had been passed. -/
theorem claim_C10_inplace_extension (p : ℚ) :
    normalize_noise_percentage (NoisePct.vec [p]) = ([p, p, p], true)
    ∧ ∀ (alignment_similarity : Shape2 → Shape2 → Bool → Affine2)
        (cosd sind : ℚ → ℚ) (normals uniforms : ℕ → ℚ)
        (source target : Shape2) (noise_type : String) (rotation : Bool),
        noisy_alignment_similarity_transform alignment_similarity cosd sind
          normals uniforms source target noise_type (NoisePct.vec [p]) rotation
        = noisy_alignment_similarity_transform alignment_similarity cosd sind
            normals uniforms source target noise_type (NoisePct.vec [p, p, p])
            rotation :=
  ⟨rfl, fun _ _ _ _ _ _ _ _ _ => rfl⟩

/-- Claim C1 (code bug).  In the 'uniform' branch the scale perturbation is
computed from the normal stream (`np.random.randn`, line 60 of the source),
not from the uniform stream.  With every normal draw equal to 7 and every
uniform draw equal to 0, `noise_percentage = [1, 0, 0]` and rotation and
translation noise switched off, the result is the scaling about the target's
centre by `1 + 1 * 0.5 * (2 * 7 - 1)` (driven by the normal draw 7) and it
differs from the scaling by `1 + 1 * 0.5 * (2 * 0 - 1)` that the claimed
`U(-1,1)` perturbation (`2 * rand - 1` with the uniform draw `rand = 0`)
would produce. -/
theorem claim_C1_uniform_scale_uses_normal_stream :
    noisy_alignment_similarity_transform (fun _ _ _ => Affine2.idA)
        (fun _ => 1) (fun _ => 0) (fun _ => 7) (fun _ => 0)
        [(0, 0)] [(-1, -1), (1, 1)] "uniform" (NoisePct.vec [1, 0, 0]) false
      = .ok (scale_about_centre [(-1, -1), (1, 1)] (1 + 1 * 0.5 * (2 * 7 - 1)))
    ∧ noisy_alignment_similarity_transform (fun _ _ _ => Affine2.idA)
        (fun _ => 1) (fun _ => 0) (fun _ => 7) (fun _ => 0)
        [(0, 0)] [(-1, -1), (1, 1)] "uniform" (NoisePct.vec [1, 0, 0]) false
      ≠ .ok (scale_about_centre [(-1, -1), (1, 1)]
          (1 + 1 * 0.5 * (2 * 0 - 1))) := by
  constructor <;>
  · simp only [noisy_alignment_similarity_transform, String.reduceEq, reduceIte]
    norm_num [normalize_noise_percentage,
      getPct3, rangeOf, centreOf, shapeMin, shapeMax, scale_about_centre,
      rotate_ccw_about_centre, Affine2.aboutCentre, Affine2.compose_after,
      Affine2.Translation, Affine2.scaleA, Affine2.rotA, Affine2.idA,
      Affine2.mk.injEq, List.foldl]

/-- Claim C2, counterexample.  In the 'gaussian' branch the per-axis translation
perturbation carries an extra `1/3` factor (`target.range() / 3`, line 54 of
the source).  With `noise_percentage = [0, 0, 1]`, a target of range `(3, 3)`
and every normal draw equal to 1, the function returns the translation by
`1 * (range/3) * 1 = (1, 1)`, not the translation by
`1 * range * 1 = (3, 3)` that the claim asserts. -/
theorem claim_C2_counterexample :
    noisy_alignment_similarity_transform (fun _ _ _ => Affine2.idA)
        (fun _ => 1) (fun _ => 0) (fun _ => 1) (fun _ => 0)
        [(0, 0)] [(0, 0), (3, 3)] "gaussian" (NoisePct.vec [0, 0, 1]) false
      = .ok (Affine2.Translation
          (1 * ((rangeOf [(0, 0), (3, 3)]).1 / 3) * 1,
           1 * ((rangeOf [(0, 0), (3, 3)]).2 / 3) * 1))
    ∧ noisy_alignment_similarity_transform (fun _ _ _ => Affine2.idA)
        (fun _ => 1) (fun _ => 0) (fun _ => 1) (fun _ => 0)
        [(0, 0)] [(0, 0), (3, 3)] "gaussian" (NoisePct.vec [0, 0, 1]) false
      ≠ .ok (Affine2.Translation
          (1 * (rangeOf [(0, 0), (3, 3)]).1 * 1,
           1 * (rangeOf [(0, 0), (3, 3)]).2 * 1)) := by
  constructor <;>
  · simp only [noisy_alignment_similarity_transform, String.reduceEq, reduceIte]
    norm_num [normalize_noise_percentage,
      getPct3, rangeOf, centreOf, shapeMin, shapeMax, scale_about_centre,
      rotate_ccw_about_centre, Affine2.aboutCentre, Affine2.compose_after,
      Affine2.Translation, Affine2.scaleA, Affine2.rotA, Affine2.idA,
      Affine2.mk.injEq, List.foldl]

/-- Claim C2 (amended).  For the 'gaussian' noise type the returned transform
acts as: rotate, scale, then translate by
`pct[2] * (target.range() / 3) * N(0,1)` per axis — i.e. the translation
component carries the same `1/3` (three-sigma) factor as the scale and
rotation components — followed by the optimal alignment transform. -/
theorem claim_C2_gaussian_translation_third
    (alignment_similarity : Shape2 → Shape2 → Bool → Affine2)
    (cosd sind : ℚ → ℚ) (normals uniforms : ℕ → ℚ)
    (source target : Shape2) (noise_percentage : NoisePct) (rotation : Bool)
    (p0 p1 p2 : ℚ)
    (h : getPct3 (normalize_noise_percentage noise_percentage).1
          = .ok (p0, p1, p2)) :
    ∃ A : Affine2,
      noisy_alignment_similarity_transform alignment_similarity cosd sind
          normals uniforms source target "gaussian" noise_percentage rotation
        = .ok A
      ∧ ∀ q : ℚ × ℚ,
          A.apply q
            = (alignment_similarity source target rotation).apply
                ((scale_about_centre target
                      (1 + p0 * (0.5 / 3) * normals 0)).apply
                    ((rotate_ccw_about_centre target
                        (cosd (p1 * (180 / 3) * normals 1))
                        (sind (p1 * (180 / 3) * normals 1))).apply q)
                  + (p2 * ((rangeOf target).1 / 3) * normals 2,
                     p2 * ((rangeOf target).2 / 3) * normals 3)) := by
  have hfn : noisy_alignment_similarity_transform alignment_similarity cosd sind
      normals uniforms source target "gaussian" noise_percentage rotation
      = .ok ((alignment_similarity source target rotation).compose_after
          ((Affine2.Translation
              (p2 * ((rangeOf target).1 / 3) * normals 2,
               p2 * ((rangeOf target).2 / 3) * normals 3)).compose_after
            ((scale_about_centre target
                (1 + p0 * (0.5 / 3) * normals 0)).compose_after
              (rotate_ccw_about_centre target
                (cosd (p1 * (180 / 3) * normals 1))
                (sind (p1 * (180 / 3) * normals 1)))))) := by
    simp only [noisy_alignment_similarity_transform, String.reduceEq, if_true,
      reduceIte, h]
  refine ⟨_, hfn, fun q => ?_⟩
  simp only [Affine2.apply_compose_after, Affine2.apply_Translation]

theorem claim_C2_gaussian_translation_third_witness :
    getPct3 (normalize_noise_percentage (NoisePct.vec [0, 0, 1])).1
      = .ok (0, 0, 1)
    ∧ ∃ A : Affine2,
        noisy_alignment_similarity_transform (fun _ _ _ => Affine2.idA)
            (fun _ => 1) (fun _ => 0) (fun _ => 1) (fun _ => 0)
            [(0, 0)] [(0, 0), (3, 3)] "gaussian" (NoisePct.vec [0, 0, 1]) false
          = .ok A
        ∧ ∀ q : ℚ × ℚ,
            A.apply q
              = Affine2.idA.apply
                  ((scale_about_centre [(0, 0), (3, 3)]
                        (1 + 0 * (0.5 / 3) * 1)).apply
                      ((rotate_ccw_about_centre [(0, 0), (3, 3)] 1 0).apply q)
                    + (1 * ((rangeOf [(0, 0), (3, 3)]).1 / 3) * 1,
                       1 * ((rangeOf [(0, 0), (3, 3)]).2 / 3) * 1)) :=
  ⟨rfl, claim_C2_gaussian_translation_third (fun _ _ _ => Affine2.idA)
    (fun _ => 1) (fun _ => 0) (fun _ => 1) (fun _ => 0)
    [(0, 0)] [(0, 0), (3, 3)] (NoisePct.vec [0, 0, 1]) false 0 0 1 rfl⟩

theorem fitLoop_eq_runsWithBudget {ι : Type} [Inhabited ι] (scales : List ℚ)
    (algorithms : List (Algorithm ι)) (images : List ι) (budgets : List ℕ)
    (gt_shapes : Option (List Shape2)) (B : ℕ → ℕ)
    (hB : ∀ j, j < scales.length → budgets.getD j 0 = B j) :
    ∀ rem i shape, i + rem ≤ scales.length →
      fitLoop scales algorithms images budgets gt_shapes rem i shape
        = runsWithBudget scales algorithms images B gt_shapes rem i shape := by
  intro rem
  induction rem with
  | zero => intro i shape _; rfl
  | succ rem ih =>
    intro i shape h
    have hi : i < scales.length := by omega
    simp only [fitLoop, runsWithBudget, hB i hi]
    rw [ih (i + 1) _ (by omega)]

/-- Claim C3.  The method `_fit` with a scalar `max_iters = k` gives every one of the
`n_scales` runs the budget `k`; with a list of length exactly `n_scales`
the run at scale `i` receives `max_iters[i]`; with a list of any other
length it fails with the configuration error before any per-scale
algorithm is run (the result is the error, for every choice of
algorithms — no partial result is produced). -/
theorem claim_C3_max_iters_distribution {ι : Type} [Inhabited ι]
    (scales : List ℚ) (algorithms : List (Algorithm ι)) (images : List ι)
    (initial_shape : Shape2) (gt_shapes : Option (List Shape2)) (k : ℕ)
    (l : List ℕ) :
    (MultiFitter._fit scales algorithms images initial_shape gt_shapes
        (.scalar k)
      = .ok (runsWithBudget scales algorithms images (fun _ => k) gt_shapes
          scales.length 0 initial_shape))
    ∧ (l.length = scales.length →
        MultiFitter._fit scales algorithms images initial_shape gt_shapes
            (.list l)
          = .ok (runsWithBudget scales algorithms images (fun i => l.getD i 0)
              gt_shapes scales.length 0 initial_shape))
    ∧ (l.length ≠ scales.length →
        MultiFitter._fit scales algorithms images initial_shape gt_shapes
            (.list l)
          = .error maxItersErrorMsg) := by
  refine ⟨?_, fun hlen => ?_, fun hlen => ?_⟩
  · simp only [MultiFitter._fit, check_max_iters]
    rw [fitLoop_eq_runsWithBudget]
    · intro j hj
      rw [List.getD_eq_getElem (List.replicate scales.length k) 0
          (by simpa using hj), List.getElem_replicate]
    · omega
  · simp only [MultiFitter._fit, check_max_iters, if_pos hlen]
    rw [fitLoop_eq_runsWithBudget]
    · intro j _
      rfl
    · omega
  · simp only [MultiFitter._fit, check_max_iters, if_neg hlen]

theorem claim_C3_witness :
    (MultiFitter._fit [(1 : ℚ), 2] [defaultAlgorithm, defaultAlgorithm]
        ([0, 1] : List ℕ) [] none (MaxIters.scalar 5)
      = .ok (runsWithBudget [(1 : ℚ), 2]
          [defaultAlgorithm, defaultAlgorithm] [0, 1] (fun _ => 5) none 2 0 []))
    ∧ (MultiFitter._fit [(1 : ℚ), 2] [defaultAlgorithm, defaultAlgorithm]
        ([0, 1] : List ℕ) [] none (MaxIters.list [5, 7])
      = .ok (runsWithBudget [(1 : ℚ), 2]
          [defaultAlgorithm, defaultAlgorithm] [0, 1]
          (fun i => [5, 7].getD i 0) none 2 0 []))
    ∧ (MultiFitter._fit [(1 : ℚ), 2] [defaultAlgorithm, defaultAlgorithm]
        ([0, 1] : List ℕ) [] none (MaxIters.list [5])
      = .error maxItersErrorMsg) :=
  ⟨(claim_C3_max_iters_distribution [(1 : ℚ), 2]
      [defaultAlgorithm, defaultAlgorithm] [0, 1] [] none 5 [5, 7]).1,
   (claim_C3_max_iters_distribution [(1 : ℚ), 2]
      [defaultAlgorithm, defaultAlgorithm] [0, 1] [] none 5 [5, 7]).2.1 rfl,
   (claim_C3_max_iters_distribution [(1 : ℚ), 2]
      [defaultAlgorithm, defaultAlgorithm] [0, 1] [] none 5 [5]).2.2
     (by decide)⟩

theorem scaleShape_one (shape : Shape2) : scaleShape 1 shape = shape := by
  simp [scaleShape]

theorem fitLoop_eq_chainedFit {ι : Type} [Inhabited ι] (scales : List ℚ)
    (algorithms : List (Algorithm ι)) (images : List ι) (budgets : List ℕ)
    (gt_shapes : Option (List Shape2))
    (hmono : scales.Pairwise (· ≤ ·)) (hpos : ∀ x ∈ scales, 0 < x) :
    ∀ rem i shape, i + rem = scales.length →
      fitLoop scales algorithms images budgets gt_shapes rem i shape
        = chainedFit scales algorithms images budgets gt_shapes rem i shape := by
  have hle : ∀ i j, i ≤ j → ∀ hj : j < scales.length,
      scales.getD i 0 ≤ scales.getD j 0 := by
    intro i j hij hj
    have hi : i < scales.length := lt_of_le_of_lt (by omega) hj
    rw [List.getD_eq_getElem scales 0 hi, List.getD_eq_getElem scales 0 hj]
    rcases eq_or_lt_of_le hij with rfl | hlt
    · exact le_refl _
    · exact List.pairwise_iff_getElem.mp hmono i j hi hj hlt
  intro rem
  induction rem with
  | zero => intro i shape _; rfl
  | succ rem ih =>
    intro i shape h
    have hi : i < scales.length := by omega
    simp only [fitLoop, chainedFit]
    rw [ih (i + 1) _ (by omega)]
    congr 2
    by_cases hguard : scales.getD i 0 ≠ scales.getD (scales.length - 1) 0
    · rw [if_pos hguard, if_pos ?_]
      have : i ≠ scales.length - 1 := by
        intro hcontra
        exact hguard (by rw [hcontra])
      omega
    · push_neg at hguard
      rw [if_neg (by push_neg; exact hguard)]
      by_cases hidx : i + 1 < scales.length
      · rw [if_pos hidx]
        have h1 : scales.getD i 0 ≤ scales.getD (i + 1) 0 := hle i (i + 1) (by omega) hidx
        have h2 : scales.getD (i + 1) 0 ≤ scales.getD (scales.length - 1) 0 :=
          hle (i + 1) (scales.length - 1) (by omega) (by omega)
        have heq : scales.getD (i + 1) 0 = scales.getD i 0 :=
          le_antisymm (h2.trans (le_of_eq hguard.symm)) h1
        have hne : scales.getD i 0 ≠ 0 := by
          have := hpos (scales.getD i 0) (by
            rw [List.getD_eq_getElem scales 0 hi]
            exact List.getElem_mem hi)
          exact ne_of_gt this
        rw [heq, div_self hne, scaleShape_one]
      · rw [if_neg hidx]

/-- Claim C4.  Under the pyramid invariant (scale factors monotonically
non-decreasing and positive), the `_fit` loop hands each non-final scale's
`final_shape` to the next scale rescaled by `scales[i+1] / scales[i]`, and
never rescales the final scale's `final_shape`: the loop coincides with the
claim-side chained loop `chainedFit` that does exactly that. -/
theorem claim_C4_scale_handoff {ι : Type} [Inhabited ι] (scales : List ℚ)
    (algorithms : List (Algorithm ι)) (images : List ι) (budgets : List ℕ)
    (gt_shapes : Option (List Shape2)) (initial_shape : Shape2)
    (hmono : scales.Pairwise (· ≤ ·)) (hpos : ∀ x ∈ scales, 0 < x) :
    fitLoop scales algorithms images budgets gt_shapes scales.length 0
        initial_shape
      = chainedFit scales algorithms images budgets gt_shapes scales.length 0
          initial_shape :=
  fitLoop_eq_chainedFit scales algorithms images budgets gt_shapes hmono hpos
    scales.length 0 initial_shape (by omega)

theorem claim_C4_witness :
    fitLoop [(1 : ℚ), 2] [defaultAlgorithm, defaultAlgorithm]
        ([0, 1] : List ℕ) [3, 4] none 2 0 [(5, 5)]
      = chainedFit [(1 : ℚ), 2] [defaultAlgorithm, defaultAlgorithm]
          ([0, 1] : List ℕ) [3, 4] none 2 0 [(5, 5)] :=
  claim_C4_scale_handoff [(1 : ℚ), 2] [defaultAlgorithm, defaultAlgorithm]
    [0, 1] [3, 4] none [(5, 5)] (by norm_num) (by norm_num)

theorem dictGet_none_forall {α : Type} {m : List (String × α)} {k : String}
    (h : dictGet m k = none) : ∀ kv ∈ m, kv.1 ≠ k := by
  intro kv hkv
  have hfind : m.find? (fun kv => kv.1 == k) = none := by
    cases hf : m.find? (fun kv => kv.1 == k)
    · rfl
    · rw [dictGet, hf] at h
      cases h
  have := List.find?_eq_none.mp hfind kv hkv
  simpa using this

theorem dictSet_fresh {α : Type} {m : List (String × α)} {k : String}
    (h : dictGet m k = none) (v : α) : dictSet m k v = m ++ [(k, v)] := by
  have hall := dictGet_none_forall h
  rw [dictSet, if_neg]
  simp only [List.any_eq_true, not_exists, not_and]
  intro kv hkv
  simpa using hall kv hkv

theorem dictDel_append {α : Type} (a b : List (String × α)) (k : String) :
    dictDel (a ++ b) k = dictDel a k ++ dictDel b k := by
  simp [dictDel, List.filter_append]

theorem dictDel_of_none {α : Type} {m : List (String × α)} {k : String}
    (h : dictGet m k = none) : dictDel m k = m := by
  have hall := dictGet_none_forall h
  rw [dictDel, List.filter_eq_self]
  intro kv hkv
  simpa using hall kv hkv

theorem dictDel_single_self {α : Type} (k : String) (v : α) :
    dictDel [(k, v)] k = [] := by
  simp [dictDel]

theorem dictDel_single_ne {α : Type} (k1 k2 : String) (v : α)
    (h : k1 ≠ k2) : dictDel [(k1, v)] k2 = [(k1, v)] := by
  simp [dictDel, h]

theorem dictGet_append_single_ne {α : Type} (m : List (String × α))
    (k1 k2 : String) (v : α) (h : k1 ≠ k2) :
    dictGet (m ++ [(k1, v)]) k2 = dictGet m k2 := by
  have hb : (k1 == k2) = false := by simpa using h
  rw [dictGet, dictGet, List.find?_append]
  cases hf : m.find? (fun kv => kv.1 == k2)
  · simp [List.find?, hb]
  · rfl

/-- Claim C9 (amended).  Provided the image carries no pre-existing landmark
group named '__initial_shape' (nor, when a ground-truth shape is supplied,
'__gt_shape'), every `_prepare_image` call that returns normally restores
the original image's landmark mapping exactly: the transient groups are
detached before return and no other group is added, removed or
modified. -/
theorem claim_C9_landmarks_restored {α : Type}
    (crop : ℚ → Image α → Image α) (rescale_to_ref : Image α → Image α)
    (fIdx : List ℕ) (fTab : ℕ → Image α → Image α)
    (image_rescale : ℚ → Image α → Image α) (scales : List ℚ)
    (image : Image α) (initial_shape : α) (gt_shape : Option α)
    (crop_image : Option ℚ)
    (h1 : dictGet image.landmarks "__initial_shape" = none)
    (h2 : gt_shape.isSome → dictGet image.landmarks "__gt_shape" = none) :
    ∀ res,
      (MultiFitter._prepare_image crop rescale_to_ref fIdx fTab image_rescale
          scales image initial_shape gt_shape crop_image).2 = .ok res →
      (MultiFitter._prepare_image crop rescale_to_ref fIdx fTab image_rescale
          scales image initial_shape gt_shape crop_image).1 = image := by
  intro res hres
  unfold MultiFitter._prepare_image at hres ⊢
  cases gt_shape with
  | none =>
    simp only at hres ⊢
    split at hres
    · cases hres
    · rw [dictSet_fresh h1, dictDel_append, dictDel_of_none h1,
        dictDel_single_self, List.append_nil]
  | some g =>
    have h2' : dictGet image.landmarks "__gt_shape" = none := h2 rfl
    have hne : "__initial_shape" ≠ "__gt_shape" := by decide
    have hne' : "__gt_shape" ≠ "__initial_shape" := by decide
    have hgt1 : dictGet (image.landmarks
        ++ [("__initial_shape", initial_shape)]) "__gt_shape" = none := by
      rw [dictGet_append_single_ne _ _ _ _ hne]
      exact h2'
    simp only at hres ⊢
    split at hres
    · cases hres
    · split at hres
      · cases hres
      · rw [dictSet_fresh h1, dictSet_fresh hgt1]
        simp only [dictDel_append, dictDel_of_none h1, dictDel_of_none h2',
          dictDel_single_self, dictDel_single_ne _ _ _ hne',
          List.append_nil, List.nil_append]

/-- Claim C9, counterexample.  On an image that already carries a landmark
group named '__initial_shape' (here holding the shape `0`), a normally
returning `_prepare_image` call does not restore the landmark mapping: the
attach overwrites the pre-existing group and the detach then deletes it,
so the group is gone after the call. -/
theorem claim_C9_counterexample :
    MultiFitter._prepare_image (fun _ im => im) (fun im => im) [0]
        (fun _ im => im) (fun _ im => im) [1]
        (⟨[("__initial_shape", (0 : ℕ))]⟩ : Image ℕ) 1 none none
      = (⟨[]⟩, .ok ([⟨[("__initial_shape", 1)]⟩], [1], none))
    ∧ (⟨[]⟩ : Image ℕ) ≠ ⟨[("__initial_shape", 0)]⟩ := by
  constructor
  · rfl
  · decide

theorem claim_C9_witness :
    (MultiFitter._prepare_image (fun _ im => im) (fun im => im) [0]
        (fun _ im => im) (fun _ im => im) [1]
        (⟨[("face", (5 : ℕ))]⟩ : Image ℕ) 1 (some 7) none).1
      = ⟨[("face", 5)]⟩ :=
  claim_C9_landmarks_restored (fun _ im => im) (fun im => im) [0]
    (fun _ im => im) (fun _ im => im) [1] ⟨[("face", 5)]⟩ 1 (some 7) none
    rfl (fun _ => rfl)
    ([⟨[("face", 5), ("__initial_shape", 1), ("__gt_shape", 7)]⟩], [1],
      some [7])
    rfl

theorem decVal_append_singleton (l : List Char) (c : Char) :
    decVal (l ++ [c]) = decVal l * 10 + decDigitVal c := by
  simp [decVal, List.foldl_append]

theorem decDigitVal_digitChar :
    ∀ d, d < 10 → decDigitVal (Nat.digitChar d) = d := by decide

theorem toDigitsCore_shift :
    ∀ (fuel n : ℕ) (ds : List Char), n < 10 ^ fuel →
      Nat.toDigitsCore 10 fuel n ds = Nat.toDigitsCore 10 fuel n [] ++ ds := by
  intro fuel
  induction fuel with
  | zero => intro n ds _; rfl
  | succ fuel ih =>
    intro n ds h
    simp only [Nat.toDigitsCore]
    by_cases hdiv : n / 10 = 0
    · simp [hdiv]
    · have hlt : n / 10 < 10 ^ fuel := by
        rw [Nat.div_lt_iff_lt_mul (by norm_num)]
        calc n < 10 ^ (fuel + 1) := h
        _ = 10 ^ fuel * 10 := by ring
      simp only [hdiv, if_false]
      rw [ih (n / 10) (Nat.digitChar (n % 10) :: ds) hlt,
        ih (n / 10) [Nat.digitChar (n % 10)] hlt, List.append_assoc,
        List.singleton_append]

theorem decVal_toDigitsCore :
    ∀ (fuel n : ℕ), n < 10 ^ fuel → 0 < fuel →
      decVal (Nat.toDigitsCore 10 fuel n []) = n := by
  intro fuel
  induction fuel with
  | zero => intro n _ hf; omega
  | succ fuel ih =>
    intro n h _
    simp only [Nat.toDigitsCore]
    by_cases hdiv : n / 10 = 0
    · have hn : n < 10 := by omega
      simp only [hdiv, if_true, reduceIte]
      simp [decVal, Nat.mod_eq_of_lt hn, decDigitVal_digitChar n hn]
    · have hlt : n / 10 < 10 ^ fuel := by
        rw [Nat.div_lt_iff_lt_mul (by norm_num)]
        calc n < 10 ^ (fuel + 1) := h
        _ = 10 ^ fuel * 10 := by ring
      have hf' : 0 < fuel := by
        rcases Nat.eq_zero_or_pos fuel with rfl | hp
        · exact absurd (Nat.div_eq_of_lt (by simpa using h)) hdiv
        · exact hp
      simp only [hdiv, if_false]
      rw [toDigitsCore_shift fuel (n / 10) [Nat.digitChar (n % 10)] hlt,
        decVal_append_singleton, ih (n / 10) hlt hf',
        decDigitVal_digitChar (n % 10) (Nat.mod_lt n (by norm_num))]
      omega

theorem natRepr_inj {a b : ℕ} (h : Nat.repr a = Nat.repr b) : a = b := by
  have hdata := congrArg String.data h
  have hlist : Nat.toDigits 10 a = Nat.toDigits 10 b := by
    simpa [Nat.repr, List.asString] using hdata
  have ha : a < 10 ^ (a + 1) :=
    lt_of_lt_of_le (Nat.lt_pow_self (by norm_num) a)
      (Nat.pow_le_pow_right (by norm_num) (Nat.le_succ a))
  have hb : b < 10 ^ (b + 1) :=
    lt_of_lt_of_le (Nat.lt_pow_self (by norm_num) b)
      (Nat.pow_le_pow_right (by norm_num) (Nat.le_succ b))
  have h1 := decVal_toDigitsCore (a + 1) a ha (Nat.succ_pos a)
  have h2 := decVal_toDigitsCore (b + 1) b hb (Nat.succ_pos b)
  have hl : Nat.toDigitsCore 10 (a + 1) a [] = Nat.toDigitsCore 10 (b + 1) b [] := hlist
  rw [← h1, ← h2, hl]

theorem bbKey_inj {a b : ℕ} (h : bbKey a = bbKey b) : a = b := by
  apply natRepr_inj
  apply String.ext
  have hdata := congrArg String.data h
  simp only [bbKey, String.data_append] at hdata
  exact List.append_cancel_left hdata

theorem globMatch_star_suffix :
    ∀ (pre s : List Char), '*' ∉ pre →
      globMatch (pre ++ ['*']) (pre ++ s) = true := by
  intro pre
  induction pre with
  | nil =>
    intro s _
    show globMatch ('*' :: []) s = true
    simp only [globMatch, if_true, reduceIte]
    rw [List.any_eq_true]
    exact ⟨[], (List.mem_tails [] s).mpr List.nil_suffix, rfl⟩
  | cons c pre ih =>
    intro s hmem
    have hc : c ≠ '*' := fun hcc => hmem (by simp [hcc])
    have hpre : '*' ∉ pre := fun hp => hmem (by simp [hp])
    simp only [List.cons_append, globMatch, if_neg hc]
    simp [ih s hpre]

theorem globMatch_bbKey (k : ℕ) :
    globMatch generatedBbGlob.toList (bbKey k).toList = true := by
  have h1 : generatedBbGlob.toList = "__generated_bb_".toList ++ ['*'] := rfl
  have h2 : (bbKey k).toList
      = "__generated_bb_".toList ++ (Nat.repr k).toList := by
    simp [bbKey, String.toList, String.data_append]
  rw [h1, h2]
  exact globMatch_star_suffix _ _ (by decide)

theorem dictGet_eq_none_of_forall {α : Type} {m : List (String × α)}
    {k : String} (h : ∀ kv ∈ m, kv.1 ≠ k) : dictGet m k = none := by
  have hfind : m.find? (fun kv => kv.1 == k) = none :=
    List.find?_eq_none.mpr (fun x hx => by simpa using h x hx)
  rw [dictGet, hfind]
  rfl

theorem fresh_bbKey {α : Type} {base gen : List (String × α)} {k : ℕ}
    (hbase : ∀ kv ∈ base, globMatch generatedBbGlob.toList kv.1.toList = false)
    (hgen : gen.map Prod.fst = (List.range k).map bbKey) :
    dictGet (base ++ gen) (bbKey k) = none := by
  apply dictGet_eq_none_of_forall
  intro kv hkv
  rcases List.mem_append.mp hkv with hb | hg
  · intro hk
    have := hbase kv hb
    rw [hk, globMatch_bbKey] at this
    cases this
  · intro hk
    have hmem : kv.1 ∈ gen.map Prod.fst := List.mem_map_of_mem _ hg
    rw [hgen, hk] at hmem
    rcases List.mem_map.mp hmem with ⟨j, hj, hbb⟩
    have : j = k := bbKey_inj hbb
    rw [List.mem_range] at hj
    omega

theorem attachPerturbs_spec {α : Type} (perturb_func : ℕ → α → α → α)
    (bounding_box : α → α) (gt_s bb : α) :
    ∀ (n k rng : ℕ) (base gen : List (String × α)),
      (∀ kv ∈ base, globMatch generatedBbGlob.toList kv.1.toList = false) →
      gen.map Prod.fst = (List.range k).map bbKey →
      ∃ gen' : List (String × α),
        attachPerturbs perturb_func bounding_box gt_s bb n k rng ⟨base ++ gen⟩
          = (k + n, rng + n, ⟨base ++ gen'⟩)
        ∧ gen'.map Prod.fst = (List.range (k + n)).map bbKey := by
  intro n
  induction n with
  | zero =>
    intro k rng base gen hb hg
    exact ⟨gen, by simp [attachPerturbs], by simpa using hg⟩
  | succ n ih =>
    intro k rng base gen hb hg
    have hfresh := fresh_bbKey hb hg
    have hg1 : (gen
        ++ [(bbKey k, bounding_box (perturb_func rng gt_s bb))]).map Prod.fst
        = (List.range (k + 1)).map bbKey := by
      rw [List.map_append, hg, List.range_succ, List.map_append]
      rfl
    obtain ⟨gen', heq, hkeys⟩ := ih (k + 1) (rng + 1) base
      (gen ++ [(bbKey k, bounding_box (perturb_func rng gt_s bb))]) hb hg1
    refine ⟨gen', ?_, ?_⟩
    · simp only [attachPerturbs]
      rw [dictSet_fresh hfresh, List.append_assoc, heq]
      have h1 : k + 1 + n = k + (n + 1) := by omega
      have h2 : rng + 1 + n = rng + (n + 1) := by omega
      rw [h1, h2]
    · have h1 : k + 1 + n = k + (n + 1) := by omega
      rw [h1] at hkeys
      exact hkeys

theorem attachForBoxes_spec {α : Type} (perturb_func : ℕ → α → α → α)
    (bounding_box : α → α) (gt_s : α) (n_perturbations : ℕ)
    (passthrough : Bool) :
    ∀ (bbs : List α) (k rng : ℕ) (base gen : List (String × α)),
      (∀ kv ∈ base, globMatch generatedBbGlob.toList kv.1.toList = false) →
      gen.map Prod.fst = (List.range k).map bbKey →
      ∃ (gen' : List (String × α)) (rng' : ℕ),
        attachForBoxes perturb_func bounding_box gt_s n_perturbations
            passthrough bbs k rng ⟨base ++ gen⟩
          = (k + bbs.length
                * (n_perturbations + if passthrough then 1 else 0),
             rng', ⟨base ++ gen'⟩)
        ∧ gen'.map Prod.fst
            = (List.range (k + bbs.length
                * (n_perturbations + if passthrough then 1 else 0))).map
                bbKey := by
  intro bbs
  induction bbs with
  | nil =>
    intro k rng base gen hb hg
    exact ⟨gen, rng, by simp [attachForBoxes], by simpa using hg⟩
  | cons bb rest ih =>
    intro k rng base gen hb hg
    obtain ⟨gen1, h1, hk1⟩ := attachPerturbs_spec perturb_func bounding_box
      gt_s bb n_perturbations k rng base gen hb hg
    cases passthrough with
    | false =>
      obtain ⟨gen', rng', h2, hk2⟩ := ih (k + n_perturbations)
        (rng + n_perturbations) base gen1 hb hk1
      simp only [Bool.false_eq_true, if_false, Nat.add_zero] at h2 hk2
      refine ⟨gen', rng', ?_, ?_⟩
      · simp only [attachForBoxes, List.length_cons, Bool.false_eq_true,
          if_false, Nat.add_zero]
        rw [h1]
        simp only [Bool.false_eq_true, if_false]
        rw [h2]
        have harith : k + n_perturbations + rest.length * n_perturbations
            = k + (rest.length + 1) * n_perturbations := by ring
        rw [harith]
      · simp only [List.length_cons, Bool.false_eq_true, if_false,
          Nat.add_zero]
        have harith : k + n_perturbations + rest.length * n_perturbations
            = k + (rest.length + 1) * n_perturbations := by ring
        rw [← harith]
        exact hk2
    | true =>
      have hfresh : dictGet (base ++ gen1) (bbKey (k + n_perturbations))
          = none := fresh_bbKey hb hk1
      have hg2 : (gen1 ++ [(bbKey (k + n_perturbations), bb)]).map Prod.fst
          = (List.range (k + n_perturbations + 1)).map bbKey := by
        rw [List.map_append, hk1, List.range_succ, List.map_append]
        rfl
      obtain ⟨gen', rng', h2, hk2⟩ := ih (k + n_perturbations + 1)
        (rng + n_perturbations) base
        (gen1 ++ [(bbKey (k + n_perturbations), bb)]) hb hg2
      simp only [reduceIte] at h2 hk2
      refine ⟨gen', rng', ?_, ?_⟩
      · simp only [attachForBoxes, List.length_cons, reduceIte]
        rw [h1]
        simp only [reduceIte]
        rw [dictSet_fresh hfresh, List.append_assoc, h2]
        have harith : k + n_perturbations + 1
            + rest.length * (n_perturbations + 1)
            = k + (rest.length + 1) * (n_perturbations + 1) := by ring
        rw [harith]
      · simp only [List.length_cons, reduceIte]
        have harith : k + n_perturbations + 1
            + rest.length * (n_perturbations + 1)
            = k + (rest.length + 1) * (n_perturbations + 1) := by ring
        rw [← harith]
        exact hk2

theorem filter_map_values_keys {α : Type} (p : String → Bool) (f : α → α) :
    ∀ l : List (String × α),
      ((l.map (fun kv => (kv.1, f kv.2))).filter (fun kv => p kv.1)).map
          Prod.fst
        = (l.filter (fun kv => p kv.1)).map Prod.fst := by
  intro l
  induction l with
  | nil => rfl
  | cons kv rest ih =>
    simp only [List.map_cons, List.filter_cons]
    cases hp : p kv.1 <;> simp [hp, ih]

theorem finalImage_keys {α : Type} (lm gen' : List (String × α)) (m : ℕ)
    (f : α → α) (b : Bool)
    (hb : ∀ kv ∈ lm, globMatch generatedBbGlob.toList kv.1.toList = false)
    (hkeys : gen'.map Prod.fst = (List.range m).map bbKey) :
    (itemsMatching generatedBbGlob
        (if b then Image.mk ((lm ++ gen').map (fun kv => (kv.1, f kv.2)))
         else ⟨lm ++ gen'⟩)).map Prod.fst
      = (List.range m).map bbKey := by
  have hgenmatch : ∀ kv ∈ gen',
      globMatch generatedBbGlob.toList kv.1.toList = true := by
    intro kv hkv
    have hm : kv.1 ∈ gen'.map Prod.fst := List.mem_map_of_mem _ hkv
    rw [hkeys] at hm
    rcases List.mem_map.mp hm with ⟨j, _, hj⟩
    rw [← hj, globMatch_bbKey]
  have hfilter : (lm ++ gen').filter
      (fun kv => globMatch generatedBbGlob.toList kv.1.toList) = gen' := by
    rw [List.filter_append]
    have h1 : lm.filter
        (fun kv => globMatch generatedBbGlob.toList kv.1.toList) = [] := by
      rw [List.filter_eq_nil_iff]
      intro kv hkv
      simp only [Bool.not_eq_true]
      exact hb kv hkv
    have h2 : gen'.filter
        (fun kv => globMatch generatedBbGlob.toList kv.1.toList) = gen' := by
      rw [List.filter_eq_self]
      intro kv hkv
      exact hgenmatch kv hkv
    rw [h1, h2, List.nil_append]
  cases b with
  | false =>
    simp only [Bool.false_eq_true, if_false, itemsMatching]
    rw [hfilter, hkeys]
  | true =>
    simp only [reduceIte, itemsMatching]
    have := filter_map_values_keys
      (fun k1 => globMatch generatedBbGlob.toList k1.toList) f (lm ++ gen')
    rw [this, hfilter, hkeys]

theorem finalImage_count {α : Type} (lm gen' : List (String × α)) (m : ℕ)
    (f : α → α) (b : Bool)
    (hb : ∀ kv ∈ lm, globMatch generatedBbGlob.toList kv.1.toList = false)
    (hkeys : gen'.map Prod.fst = (List.range m).map bbKey) :
    countMatching generatedBbGlob
        (if b then Image.mk ((lm ++ gen').map (fun kv => (kv.1, f kv.2)))
         else ⟨lm ++ gen'⟩) = m := by
  have hk := finalImage_keys lm gen' m f b hb hkeys
  have h1 : countMatching generatedBbGlob
      (if b then Image.mk ((lm ++ gen').map (fun kv => (kv.1, f kv.2)))
       else ⟨lm ++ gen'⟩)
      = ((itemsMatching generatedBbGlob
          (if b then Image.mk ((lm ++ gen').map (fun kv => (kv.1, f kv.2)))
           else ⟨lm ++ gen'⟩)).map Prod.fst).length := by
    rw [List.length_map]
    rfl
  rw [h1, hk, List.length_map, List.length_range]

/-- Claim C7.  Per image processed by `generate_perturbations_from_gt` (loop
body `process_one_image`), on an image that carries the `gt_group` and no
pre-existing `__generated_bb_*` group: with `bb_group_glob = None` exactly
`n_perturbations` groups matching `__generated_bb_*` are attached, named
with the consecutive counter suffixes `0 .. n_perturbations - 1`; with a
glob matching `M ≥ 1` groups, exactly `n_perturbations * M + M` such groups
are attached. -/
theorem claim_C7_generated_box_counts {α : Type} (n_perturbations : ℕ)
    (perturb_func : ℕ → α → α → α) (bounding_box : α → α)
    (has_out : Image α → Bool) (clamp : α → α) (gt_group : String)
    (rng : ℕ) (im : Image α) (g : α)
    (hgt : dictGet im.landmarks gt_group = some g)
    (hclean : countMatching generatedBbGlob im = 0) :
    (∀ rng' im',
        process_one_image n_perturbations perturb_func bounding_box has_out
            clamp gt_group none rng im = .ok (rng', im') →
        countMatching generatedBbGlob im' = n_perturbations
        ∧ (itemsMatching generatedBbGlob im').map Prod.fst
            = (List.range n_perturbations).map bbKey)
    ∧ (∀ gl rng' im', 1 ≤ (itemsMatching gl im).length →
        process_one_image n_perturbations perturb_func bounding_box has_out
            clamp gt_group (some gl) rng im = .ok (rng', im') →
        countMatching generatedBbGlob im'
          = n_perturbations * (itemsMatching gl im).length
            + (itemsMatching gl im).length) := by
  obtain ⟨lm⟩ := im
  have hb : ∀ kv ∈ lm, globMatch generatedBbGlob.toList kv.1.toList
      = false := by
    have hnil : lm.filter
        (fun kv => globMatch generatedBbGlob.toList kv.1.toList) = [] := by
      have := hclean
      rwa [countMatching, itemsMatching, List.length_eq_zero] at this
    intro kv hkv
    have := List.filter_eq_nil_iff.mp hnil kv hkv
    simpa using this
  constructor
  · intro rng' im' hres
    obtain ⟨gen', rng2, hab, hkeys⟩ := attachForBoxes_spec perturb_func
      bounding_box (bounding_box g) n_perturbations false
      [bounding_box g] 0 rng lm [] hb rfl
    simp only [Bool.false_eq_true, if_false, Nat.add_zero,
      List.length_singleton, Nat.zero_add, Nat.one_mul, List.append_nil,
      one_mul, zero_add] at hab hkeys
    simp only [process_one_image, hgt, Option.isSome_none,
      Option.isSome_some] at hres
    rw [hab] at hres
    simp only [Except.ok.injEq, Prod.mk.injEq] at hres
    obtain ⟨_, him⟩ := hres
    rw [← him]
    exact ⟨finalImage_count lm gen' n_perturbations clamp _ hb hkeys,
      finalImage_keys lm gen' n_perturbations clamp _ hb hkeys⟩
  · intro gl rng' im' _ hres
    obtain ⟨gen', rng2, hab, hkeys⟩ := attachForBoxes_spec perturb_func
      bounding_box (bounding_box g) n_perturbations true
      ((itemsMatching gl ⟨lm⟩).map (fun kv => bounding_box kv.2)) 0 rng
      lm [] hb rfl
    simp only [reduceIte, Nat.zero_add, List.append_nil, zero_add,
      List.length_map] at hab hkeys
    simp only [process_one_image, hgt, Option.isSome_none,
      Option.isSome_some] at hres
    rw [hab] at hres
    simp only [Except.ok.injEq, Prod.mk.injEq] at hres
    obtain ⟨_, him⟩ := hres
    rw [← him]
    have hcount := finalImage_count lm gen'
      ((itemsMatching gl ⟨lm⟩).length * (n_perturbations + 1)) clamp
      (has_out ⟨lm ++ gen'⟩) hb hkeys
    have harith : (itemsMatching gl ⟨lm⟩).length * (n_perturbations + 1)
        = n_perturbations * (itemsMatching gl ⟨lm⟩).length
          + (itemsMatching gl ⟨lm⟩).length := by ring
    rw [← harith]
    exact hcount

theorem claim_C7_witness :
    (countMatching generatedBbGlob
        (⟨[("gt", (5 : ℕ)), ("__generated_bb_0", 10),
           ("__generated_bb_1", 11)]⟩ : Image ℕ) = 2
      ∧ (itemsMatching generatedBbGlob
          (⟨[("gt", (5 : ℕ)), ("__generated_bb_0", 10),
             ("__generated_bb_1", 11)]⟩ : Image ℕ)).map Prod.fst
          = (List.range 2).map bbKey)
    ∧ countMatching generatedBbGlob
        (⟨[("gt", (5 : ℕ)), ("box_0", 8), ("__generated_bb_0", 13),
           ("__generated_bb_1", 14), ("__generated_bb_2", 8)]⟩ : Image ℕ)
        = 2 * 1 + 1 :=
  ⟨(claim_C7_generated_box_counts 2 (fun r a b => a + b + r) id
      (fun _ => false) id "gt" 0 ⟨[("gt", 5)]⟩ 5 rfl rfl).1 2
      ⟨[("gt", 5), ("__generated_bb_0", 10), ("__generated_bb_1", 11)]⟩ rfl,
   (claim_C7_generated_box_counts 2 (fun r a b => a + b + r) id
      (fun _ => false) id "gt" 0 ⟨[("gt", 5), ("box_0", 8)]⟩ 5 rfl rfl).2
      "box_*" 2
      ⟨[("gt", 5), ("box_0", 8), ("__generated_bb_0", 13),
        ("__generated_bb_1", 14), ("__generated_bb_2", 8)]⟩
      (by decide) (by decide)⟩

/-- Claim C8.  With a `bb_group_glob` matching zero landmark groups on the
first image, `generate_perturbations_from_gt` raises the `ValueError`
before processing any image: the result is the bare error — independent of
the perturbation function, bounds predicate and clamping, so no per-image
mutation can have taken place. -/
theorem claim_C8_empty_glob_error {α : Type} (n_perturbations : ℕ)
    (perturb_func : ℕ → α → α → α) (bounding_box : α → α)
    (has_out : Image α → Bool) (clamp : α → α) (gt_group : String)
    (gl : String) (im0 : Image α) (rest : List (Image α))
    (hzero : (itemsMatching gl im0).length = 0) :
    generate_perturbations_from_gt (im0 :: rest) n_perturbations perturb_func
        bounding_box has_out clamp gt_group (some gl)
      = .error (bbGlobErrorMsg gl) := by
  simp only [generate_perturbations_from_gt, hzero, if_pos]

theorem claim_C8_witness :
    generate_perturbations_from_gt
        [(⟨[("gt", (5 : ℕ))]⟩ : Image ℕ)] 2 (fun r a b => a + b + r) id
        (fun _ => false) id "gt" (some "nomatch_*")
      = .error (bbGlobErrorMsg "nomatch_*") :=
  claim_C8_empty_glob_error 2 (fun r a b => a + b + r) id
    (fun _ => false) id "gt" "nomatch_*" ⟨[("gt", 5)]⟩ [] rfl
